import Mathlib

/-!
Verification development for the data-ingestion, location-resolution and
metrics-aggregation core of the `ug-district-gen-ai-api` repository.

The JavaScript source is shallowly embedded:
  * strings are Lean `String`, with character-level helpers (`jsTrim`,
    `jsToLower`, `splitOnNl`, `leadMatch`) that mirror the JS built-ins
    used by the code (`trim`, `toLowerCase`, `split('\n')`, `startsWith`);
  * JS numbers are modelled as `ℚ` (`Number.prototype.toFixed(1)` becomes
    rounding to one decimal place over `ℚ`; binary floating point is not
    modelled);
  * a facility record is a structure of `Option String` fields, one per
    column name the source reads; an absent column is `none`, and the JS
    falsy-chain `a || b` over possibly-empty strings is `jsOrS`;
  * fallible lookups return `Option`.
-/

/-- Whitespace test used by the `jsTrim` model of `String.prototype.trim`
(ASCII whitespace only; the full Unicode set trimmed by JS is not needed by
the data handled here). -/
def isWS (c : Char) : Bool := c = ' ' ∨ c = '\t' ∨ c = '\n' ∨ c = '\r'

/-- Drop leading and trailing whitespace characters from a character list. -/
def trimChars (cs : List Char) : List Char :=
  ((cs.dropWhile isWS).reverse.dropWhile isWS).reverse

/-- Model of `String.prototype.trim`. -/
def jsTrim (s : String) : String := String.mk (trimChars s.data)

/-- Model of `String.prototype.toLowerCase` (per-character lowering). -/
def jsToLower (s : String) : String := String.mk (s.data.map Char.toLower)

/-- Model of `content.split('\n')`: splits a character list at every newline;
the result always has at least one (possibly empty) segment, exactly as in JS. -/
def splitOnNl : List Char → List (List Char)
  | [] => [[]]
  | c :: rest =>
    let r := splitOnNl rest
    if c = '\n' then [] :: r
    else
      match r with
      | h :: t => (c :: h) :: t
      | [] => [[c]]

/-- Model of `String.prototype.startsWith`: `leadMatch pat cs` is true iff
`pat` is a literal (case-sensitive) leading segment of `cs`. -/
def leadMatch : List Char → List Char → Bool
  | [], _ => true
  | _ :: _, [] => false
  | p :: ps, c :: cs => p = c && leadMatch ps cs

/-- Helper for the model of `String.prototype.includes`: does `pat` occur as a
leading segment of some tail of the list? -/
def hasSubAux (pat : List Char) : List Char → Bool
  | [] => leadMatch pat []
  | c :: rest => leadMatch pat (c :: rest) || hasSubAux pat rest

/-- Model of `s.includes(pat)` for strings. -/
def containsSub (s pat : String) : Bool := hasSubAux pat.data s.data

/-- JS falsy-coalescing `a || b` over optional string fields: `none` and the
empty string are falsy and fall through to `b`. -/
def jsOrS (a b : Option String) : Option String :=
  match a with
  | some s => if s = "" then b else some s
  | none => b

/-- JS `a || dflt` where the final default is a plain string: `none` and the
empty string give the default. -/
def jsOrDefault (o : Option String) (dflt : String) : String :=
  match o with
  | some s => if s = "" then dflt else s
  | none => dflt

/-- JS truthiness of an optional string value (`undefined` and `''` are falsy). -/
def isTruthy (o : Option String) : Bool :=
  match o with
  | some s => s ≠ ""
  | none => false

/-- Source `isYes` (src/src/utils/metrics.js): a value represents "yes" iff its
trimmed, lower-cased form is one of yes/y/true/1; absent or empty is false. -/
def isYes (value : Option String) : Bool :=
  match value with
  | none => false
  | some s =>
    if s = "" then false
    else
      let t := jsTrim (jsToLower s)
      t = "yes" || t = "y" || t = "true" || t = "1"

/-- Digits-to-number accumulator for the `parseFloat` model. -/
def digitsToNat (cs : List Char) : Nat :=
  cs.foldl (fun n c => n * 10 + (c.toNat - 48)) 0

/-- Model of the decimal core of JS `parseFloat`: optional leading whitespace,
optional sign, an integer part and an optional fractional part; returns `none`
for NaN (no digits at all). Exponent notation is not modelled — the facility
data never uses it, and no claim depends on it. -/
def jsParseFloat (s : String) : Option ℚ :=
  let cs := s.data.dropWhile isWS
  let signAndRest : ℚ × List Char :=
    match cs with
    | '-' :: r => (-1, r)
    | '+' :: r => (1, r)
    | _ => (1, cs)
  let intPart := signAndRest.2.takeWhile Char.isDigit
  let rest := signAndRest.2.dropWhile Char.isDigit
  let fracPart : List Char :=
    match rest with
    | '.' :: r => r.takeWhile Char.isDigit
    | _ => []
  if intPart = [] ∧ fracPart = [] then none
  else
    some (signAndRest.1 *
      ((digitsToNat intPart : ℚ) + (digitsToNat fracPart : ℚ) / (10 : ℚ) ^ fracPart.length))

/-- Source `parseNumber` (src/src/utils/metrics.js): strips thousands-separator
commas, parses as a float, and maps absent/empty/NaN input to zero. In the
embedding every record value is a string, so the JS `typeof value === 'number'`
fast path never fires. -/
def parseNumber (value : Option String) : ℚ :=
  match value with
  | none => 0
  | some s =>
    if s = "" then 0
    else
      match jsParseFloat (String.mk (s.data.filter (fun c => ¬ c = ','))) with
      | some q => q
      | none => 0

/-- Model of `Number.prototype.toFixed(1)` over `ℚ`: round to one decimal
place. The JS method yields a decimal string; call sites in the source only
compare it numerically, so the embedding keeps the rounded rational. -/
def jsToFixed1 (q : ℚ) : ℚ := ((round (q * 10) : ℤ) : ℚ) / 10

/-- Source `getSeverity` (src/src/utils/metrics.js, lines 284-290): severity of
a gap from the ratio of current to target value, by strict-less-than
thresholds. -/
def getSeverity (current target : ℚ) : String :=
  let ratio := current / target
  if ratio < 0.5 then "critical"
  else if ratio < 0.75 then "high"
  else if ratio < 0.9 then "medium"
  else "low"

/-- One benchmark-gap diagnostic: kind, current value, benchmark value and
severity label (src field names `type`, `current`, `target`/`benchmark`,
`severity`). -/
structure Gap where
  gtype : String
  current : ℚ
  bench : ℚ
  severity : String
deriving DecidableEq

/-- The gap push for a coverage percentage (`if (pct < target) push(...)` in
the source): an absent percentage compares as false in JS, so no gap. The
severity call is `getSeverity(current, target)`. -/
def coverageGap (kind : String) (p : Option ℚ) (target : ℚ) : List Gap :=
  match p with
  | some v => if v < target then [⟨kind, v, target, getSeverity v target⟩] else []
  | none => []

/-- The gap push for a "lower is better" ratio (`if (ratio > benchmark)
push(...)` in the source): an absent ratio compares as false in JS, so no gap.
The severity call swaps the arguments: `getSeverity(benchmark, ratio)`. -/
def deficitGap (kind : String) (r : Option ℚ) (bench : ℚ) : List Gap :=
  match r with
  | some v => if bench < v then [⟨kind, v, bench, getSeverity bench v⟩] else []
  | none => []

/-- Source `parseCSVLine` field scanner: walks the characters with an
in-quotes flag; a doubled quote inside quotes is a literal quote, an unquoted
comma ends the field. `current` is the field accumulated so far. -/
def csvFields : List Char → Bool → List Char → List String
  | [], _, current => [String.mk current]
  | c :: rest, inQuotes, current =>
    if c = '"' then
      if inQuotes then
        match rest with
        | c2 :: rest2 =>
          if c2 = '"' then csvFields rest2 inQuotes (current ++ ['"'])
          else csvFields (c2 :: rest2) false current
        | [] => csvFields [] false current
      else csvFields rest true current
    else if c = ',' ∧ inQuotes = false then
      String.mk current :: csvFields rest false []
    else csvFields rest inQuotes (current ++ [c])

/-- Source `parseCSVLine` (src/src/utils/dataLoader.js, lines 140-171): split
one CSV line into field values, honoring double-quote quoting. -/
def parseCSVLine (line : String) : List String := csvFields line.data false []

/-- Building one record object: `row[header.trim()] = values[index]?.trim() || ''`.
Headers beyond the value count get the empty string; values beyond the header
count are dropped. A record is an association list in header order. -/
def buildRow : List String → List String → List (String × String)
  | [], _ => []
  | h :: hs, [] => (jsTrim h, "") :: buildRow hs []
  | h :: hs, v :: vs => (jsTrim h, jsTrim v) :: buildRow hs vs

/-- The data-line loop of `parseCSV`: blank lines (empty after trimming) are
skipped, every other line becomes one record. -/
def parseRows (headers : List String) : List String → List (List (String × String))
  | [] => []
  | line :: rest =>
    if jsTrim line = "" then parseRows headers rest
    else buildRow headers (parseCSVLine line) :: parseRows headers rest

/-- Source `parseCSV` (src/src/utils/dataLoader.js, lines 110-133): trim the
content, split on newline, parse the first line as the header, and build one
record per non-blank data line. -/
def parseCSV (csvContent : String) : List (List (String × String)) :=
  match (splitOnNl (trimChars csvContent.data)).map String.mk with
  | [] => []
  | headerLine :: rest => parseRows (parseCSVLine headerLine) rest

/-- A facility record: one `Option String` field per column name the source
code reads (absent column = `none`). Field names match the JS property
accesses in src/src/utils/metrics.js and src/unnamed/part_002. -/
structure Facility where
  level : Option String := none
  Level : Option String := none
  facility_level : Option String := none
  ownership : Option String := none
  Ownership : Option String := none
  location_code : Option String := none
  Location_code : Option String := none
  subcounty : Option String := none
  Subcounty : Option String := none
  sub_county : Option String := none
  electricity_available : Option String := none
  electricity : Option String := none
  Electricity : Option String := none
  water_available : Option String := none
  water : Option String := none
  Water : Option String := none
  ict_lab : Option String := none
  ICT_Lab : Option String := none
  library : Option String := none
  Library : Option String := none
  total_learners : Option String := none
  Total_Learners : Option String := none
  enrollment : Option String := none
  total_teachers : Option String := none
  Total_Teachers : Option String := none
  teachers : Option String := none
  total_classrooms : Option String := none
  Total_Classrooms : Option String := none
  classrooms : Option String := none
  ambulance : Option String := none
  Ambulance : Option String := none
  maternity_ward : Option String := none
  Maternity : Option String := none
  hiv_services : Option String := none
  HIV : Option String := none
  has_hiv_tb_care : Option String := none
  hivaids_and_tb_care1 : Option String := none
  maternal_services : Option String := none
  Maternal : Option String := none
  has_maternal_health : Option String := none
  child_health : Option String := none
  Child_Health : Option String := none
  immunization : Option String := none
  Immunization : Option String := none
  has_immunization : Option String := none
  immunization_services1 : Option String := none
deriving DecidableEq

/-- The location filter object passed to `filterByLocation`: optional
district/subcounty/parish/village code fields. -/
structure LocationFilter where
  district : Option String := none
  subcounty : Option String := none
  parish : Option String := none
  village : Option String := none
deriving DecidableEq

/-- The `row.location_code || row.Location_code || ''` chain of
`filterByLocation`. -/
def facilityLocationCode (row : Facility) : String :=
  jsOrDefault (jsOrS row.location_code row.Location_code) ""

/-- The filter-code selection chain of `filterByLocation` (src/unnamed/part_002,
lines 58-75): the most specific truthy field wins, village first. -/
def chosenCode (location : LocationFilter) : Option String :=
  if isTruthy location.village then location.village
  else if isTruthy location.parish then location.parish
  else if isTruthy location.subcounty then location.subcounty
  else if isTruthy location.district then location.district
  else none

/-- Source `filterByLocation` (src/unnamed/part_002, lines 58-90): with no
truthy filter field, all facilities are returned; otherwise a facility is kept
iff its location code starts with the chosen filter code. -/
def filterByLocation (facilities : List Facility) (location : LocationFilter) :
    List Facility :=
  match chosenCode location with
  | none => facilities
  | some code =>
    facilities.filter (fun row => leadMatch code.data (facilityLocationCode row).data)

/-- The mutable accumulator of the education `forEach` loop. -/
structure EduAcc where
  byLevel : List (String × Nat) := []
  byOwnership : List (String × Nat) := []
  withElectricity : Nat := 0
  withWater : Nat := 0
  withICTLab : Nat := 0
  withLibrary : Nat := 0
  totalLearners : ℚ := 0
  totalTeachers : ℚ := 0
  totalClassrooms : ℚ := 0
deriving DecidableEq

/-- Insertion-ordered counter bump: `m[label] = (m[label] || 0) + 1` on a JS
object, modelled as an association list (new labels are appended). -/
def bumpLabel : List (String × Nat) → String → List (String × Nat)
  | [], k => [(k, 1)]
  | (k', n) :: rest, k =>
    if k' = k then (k', n + 1) :: rest else (k', n) :: bumpLabel rest k

/-- Canonical level of an education facility: `facility.level || facility.Level
|| 'Unknown'`. -/
def eduLevel (f : Facility) : String := jsOrDefault (jsOrS f.level f.Level) "Unknown"

/-- Canonical ownership: `facility.ownership || facility.Ownership || 'Unknown'`. -/
def ownershipOf (f : Facility) : String :=
  jsOrDefault (jsOrS f.ownership f.Ownership) "Unknown"

/-- Parsed teacher count of one education record
(`facility.total_teachers || facility.Total_Teachers || facility.teachers`). -/
def eduTeachersOf (f : Facility) : ℚ :=
  parseNumber (jsOrS (jsOrS f.total_teachers f.Total_Teachers) f.teachers)

/-- Parsed learner count of one education record. -/
def eduLearnersOf (f : Facility) : ℚ :=
  parseNumber (jsOrS (jsOrS f.total_learners f.Total_Learners) f.enrollment)

/-- Parsed classroom count of one education record. -/
def eduClassroomsOf (f : Facility) : ℚ :=
  parseNumber (jsOrS (jsOrS f.total_classrooms f.Total_Classrooms) f.classrooms)

/-- One iteration of the education `facilities.forEach` loop
(src/src/utils/metrics.js, lines 65-96). -/
def eduStep (m : EduAcc) (f : Facility) : EduAcc :=
  let learners := eduLearnersOf f
  let teachers := eduTeachersOf f
  let classrooms := eduClassroomsOf f
  { byLevel := bumpLabel m.byLevel (eduLevel f)
    byOwnership := bumpLabel m.byOwnership (ownershipOf f)
    withElectricity :=
      m.withElectricity + (if isYes (jsOrS f.electricity_available f.Electricity) then 1 else 0)
    withWater := m.withWater + (if isYes (jsOrS f.water_available f.Water) then 1 else 0)
    withICTLab := m.withICTLab + (if isYes (jsOrS f.ict_lab f.ICT_Lab) then 1 else 0)
    withLibrary := m.withLibrary + (if isYes (jsOrS f.library f.Library) then 1 else 0)
    totalLearners := m.totalLearners + (if 0 < learners then learners else 0)
    totalTeachers := m.totalTeachers + (if 0 < teachers then teachers else 0)
    totalClassrooms := m.totalClassrooms + (if 0 < classrooms then classrooms else 0) }

/-- The accumulator after the whole education loop. -/
def eduAccOf (facilities : List Facility) : EduAcc := facilities.foldl eduStep {}

/-- The education aggregate returned by `calculateEducationMetrics`:
percentage and per-field fields are `Option ℚ` — `none` models the field
being absent from the JS object. The static `benchmarks` attachment is a
constant table and is not modelled. -/
structure EducationMetrics where
  totalFacilities : Nat
  byLevel : List (String × Nat)
  byOwnership : List (String × Nat)
  withElectricity : Nat
  withWater : Nat
  withICTLab : Nat
  withLibrary : Nat
  electricityPercentage : Option ℚ
  waterPercentage : Option ℚ
  ictLabPercentage : Option ℚ
  libraryPercentage : Option ℚ
  totalLearners : ℚ
  totalTeachers : ℚ
  totalClassrooms : ℚ
  pupilTeacherRatioOpt : Option ℚ
  pupilClassroomRatioOpt : Option ℚ
  gaps : List Gap
deriving DecidableEq

/-- Source `calculateEducationMetrics` (src/src/utils/metrics.js, lines
45-136): accumulate counts and sums, then add the derived percentages (only
when the facility count is positive), the ratios (only when the denominator
accumulator is positive), and the gap diagnostics. A JS comparison between an
absent field and a number is false, so a missing percentage or ratio never
yields a gap. -/
def calculateEducationMetrics (facilities : List Facility) : EducationMetrics :=
  let a := eduAccOf facilities
  let total := facilities.length
  let elecP : Option ℚ :=
    if 0 < total then some (jsToFixed1 ((a.withElectricity : ℚ) / (total : ℚ) * 100)) else none
  let waterP : Option ℚ :=
    if 0 < total then some (jsToFixed1 ((a.withWater : ℚ) / (total : ℚ) * 100)) else none
  let ictP : Option ℚ :=
    if 0 < total then some (jsToFixed1 ((a.withICTLab : ℚ) / (total : ℚ) * 100)) else none
  let libP : Option ℚ :=
    if 0 < total then some (jsToFixed1 ((a.withLibrary : ℚ) / (total : ℚ) * 100)) else none
  let ptr : Option ℚ :=
    if 0 < a.totalTeachers then some (jsToFixed1 (a.totalLearners / a.totalTeachers)) else none
  let pcr : Option ℚ :=
    if 0 < a.totalClassrooms then some (jsToFixed1 (a.totalLearners / a.totalClassrooms)) else none
  { totalFacilities := total
    byLevel := a.byLevel
    byOwnership := a.byOwnership
    withElectricity := a.withElectricity
    withWater := a.withWater
    withICTLab := a.withICTLab
    withLibrary := a.withLibrary
    electricityPercentage := elecP
    waterPercentage := waterP
    ictLabPercentage := ictP
    libraryPercentage := libP
    totalLearners := a.totalLearners
    totalTeachers := a.totalTeachers
    totalClassrooms := a.totalClassrooms
    pupilTeacherRatioOpt := ptr
    pupilClassroomRatioOpt := pcr
    gaps := coverageGap "electricity" elecP 100 ++ deficitGap "pupil_teacher_ratio" ptr 40 }

/-- The mutable accumulator of the health `forEach` loop. -/
structure HealthAcc where
  byLevel : List (String × Nat) := []
  byOwnership : List (String × Nat) := []
  withElectricity : Nat := 0
  withWater : Nat := 0
  withAmbulance : Nat := 0
  withMaternity : Nat := 0
  offeringHIV : Nat := 0
  offeringMaternal : Nat := 0
  offeringChildHealth : Nat := 0
  offeringImmunization : Nat := 0
deriving DecidableEq

/-- Canonical level of a health facility: `facility.level || facility.Level ||
facility.facility_level || 'Unknown'`. -/
def healthLevel (f : Facility) : String :=
  jsOrDefault (jsOrS (jsOrS f.level f.Level) f.facility_level) "Unknown"

/-- One iteration of the health `facilities.forEach` loop
(src/src/utils/metrics.js, lines 161-197). -/
def healthStep (m : HealthAcc) (f : Facility) : HealthAcc :=
  { byLevel := bumpLabel m.byLevel (healthLevel f)
    byOwnership := bumpLabel m.byOwnership (ownershipOf f)
    withElectricity :=
      m.withElectricity + (if isYes (jsOrS f.electricity f.Electricity) then 1 else 0)
    withWater := m.withWater + (if isYes (jsOrS f.water f.Water) then 1 else 0)
    withAmbulance := m.withAmbulance + (if isYes (jsOrS f.ambulance f.Ambulance) then 1 else 0)
    withMaternity :=
      m.withMaternity + (if isYes (jsOrS f.maternity_ward f.Maternity) then 1 else 0)
    offeringHIV :=
      m.offeringHIV +
        (if isYes (jsOrS (jsOrS (jsOrS f.hiv_services f.HIV) f.has_hiv_tb_care)
            f.hivaids_and_tb_care1) then 1 else 0)
    offeringMaternal :=
      m.offeringMaternal +
        (if isYes (jsOrS (jsOrS f.maternal_services f.Maternal) f.has_maternal_health)
          then 1 else 0)
    offeringChildHealth :=
      m.offeringChildHealth + (if isYes (jsOrS f.child_health f.Child_Health) then 1 else 0)
    offeringImmunization :=
      m.offeringImmunization +
        (if isYes (jsOrS (jsOrS (jsOrS f.immunization f.Immunization) f.has_immunization)
            f.immunization_services1) then 1 else 0) }

/-- The accumulator after the whole health loop. -/
def healthAccOf (facilities : List Facility) : HealthAcc := facilities.foldl healthStep {}

/-- The health aggregate returned by `calculateHealthMetrics`; `Option ℚ`
percentage fields model presence/absence on the JS object. -/
structure HealthMetrics where
  totalFacilities : Nat
  byLevel : List (String × Nat)
  byOwnership : List (String × Nat)
  withElectricity : Nat
  withWater : Nat
  withAmbulance : Nat
  withMaternity : Nat
  electricityPercentage : Option ℚ
  waterPercentage : Option ℚ
  ambulancePercentage : Option ℚ
  maternityPercentage : Option ℚ
  offeringHIV : Nat
  offeringMaternal : Nat
  offeringChildHealth : Nat
  offeringImmunization : Nat
  hivPercentage : Option ℚ
  maternalPercentage : Option ℚ
  childHealthPercentage : Option ℚ
  immunizationPercentage : Option ℚ
  gaps : List Gap
deriving DecidableEq

/-- Source `calculateHealthMetrics` (src/src/utils/metrics.js, lines 141-225). -/
def calculateHealthMetrics (facilities : List Facility) : HealthMetrics :=
  let a := healthAccOf facilities
  let total := facilities.length
  let pct : Nat → Option ℚ := fun c =>
    if 0 < total then some (jsToFixed1 ((c : ℚ) / (total : ℚ) * 100)) else none
  let elecP := pct a.withElectricity
  { totalFacilities := total
    byLevel := a.byLevel
    byOwnership := a.byOwnership
    withElectricity := a.withElectricity
    withWater := a.withWater
    withAmbulance := a.withAmbulance
    withMaternity := a.withMaternity
    electricityPercentage := elecP
    waterPercentage := pct a.withWater
    ambulancePercentage := pct a.withAmbulance
    maternityPercentage := pct a.withMaternity
    offeringHIV := a.offeringHIV
    offeringMaternal := a.offeringMaternal
    offeringChildHealth := a.offeringChildHealth
    offeringImmunization := a.offeringImmunization
    hivPercentage := pct a.offeringHIV
    maternalPercentage := pct a.offeringMaternal
    childHealthPercentage := pct a.offeringChildHealth
    immunizationPercentage := pct a.offeringImmunization
    gaps := coverageGap "electricity" elecP 100 }

/-- The value returned by `calculateMetrics`: one of the two category
aggregates, or the empty object `{}` for an unknown category. -/
inductive MetricsResult where
  | edu (m : EducationMetrics)
  | health (m : HealthMetrics)
  | emptyObj
deriving DecidableEq

/-- Source `calculateMetrics` (src/src/utils/metrics.js, lines 33-40): string
dispatch on the category; anything else yields the empty object. The unused
`location` parameter of the JS function is dropped. -/
def calculateMetrics (facilities : List Facility) (category : String) : MetricsResult :=
  if category = "education" then .edu (calculateEducationMetrics facilities)
  else if category = "health" then .health (calculateHealthMetrics facilities)
  else .emptyObj

/-- Canonical subcounty label used for grouping: `facility.subcounty ||
facility.Subcounty || facility.sub_county || 'Unknown'`. -/
def subcountyKey (f : Facility) : String :=
  jsOrDefault (jsOrS (jsOrS f.subcounty f.Subcounty) f.sub_county) "Unknown"

/-- Insertion-ordered grouping map: append the facility to its key's group,
creating the group at the end on first sight (JS `Map` insertion order). -/
def insertGroup : List (String × List Facility) → String → Facility →
    List (String × List Facility)
  | [], k, f => [(k, [f])]
  | (k', l) :: rest, k, f =>
    if k' = k then (k', l ++ [f]) :: rest else (k', l) :: insertGroup rest k f

/-- The grouping pass of `getSubcountyBreakdown`. -/
def groupBySubcounty (facilities : List Facility) : List (String × List Facility) :=
  facilities.foldl (fun g f => insertGroup g (subcountyKey f) f) []

/-- The category heuristic of `getSubcountyBreakdown`:
`sc.facilities[0]?.level?.toLowerCase().includes('health') ? 'health' : 'education'`. -/
def groupCategory (fs : List Facility) : String :=
  match fs with
  | [] => "education"
  | f :: _ =>
    match f.level with
    | some s => if containsSub (jsToLower s) "health" then "health" else "education"
    | none => "education"

/-- One entry of the subcounty breakdown: location label, facility count and
the embedded aggregate of the group. -/
structure BreakdownEntry where
  location : String
  facilityCount : Nat
  metrics : MetricsResult
deriving DecidableEq

/-- The comparator of the final `breakdown.sort((a, b) => b.facilityCount -
a.facilityCount)`: descending facility count. -/
def entryGE (a b : BreakdownEntry) : Prop := b.facilityCount ≤ a.facilityCount

instance : DecidableRel entryGE := fun a b => Nat.decLe b.facilityCount a.facilityCount

instance : IsTotal BreakdownEntry entryGE :=
  ⟨fun a b => (Nat.le_total b.facilityCount a.facilityCount).imp id id⟩

instance : IsTrans BreakdownEntry entryGE :=
  ⟨fun _ _ _ h1 h2 => Nat.le_trans h2 h1⟩

/-- Source `getSubcountyBreakdown` (src/src/utils/metrics.js, lines 230-260):
group by subcounty label, aggregate each group (category guessed from the
first group member), and sort by facility count descending. JS engines use a
stable sort; the embedding uses stable insertion sort. -/
def getSubcountyBreakdown (facilities : List Facility) : List BreakdownEntry :=
  let entries := (groupBySubcounty facilities).map
    (fun kv => BreakdownEntry.mk kv.1 kv.2.length (calculateMetrics kv.2 (groupCategory kv.2)))
  List.insertionSort entryGE entries

/-- A village node of the location tree. -/
structure Village where
  code : String
  name : String
deriving DecidableEq

/-- A parish node; `parish.villages || []` in the source means a missing list
is the empty list. -/
structure Parish where
  code : String
  name : String
  villages : List Village := []
deriving DecidableEq

/-- A subcounty node. -/
structure Subcounty where
  code : String
  name : String
  parishes : List Parish := []
deriving DecidableEq

/-- A district node. -/
structure District where
  code : String
  name : String
  subcounties : List Subcounty := []
deriving DecidableEq

/-- The whole locations document: a list of district trees. -/
structure Locations where
  districts : List District := []
deriving DecidableEq

/-- Consume one code segment: the marker letter followed by at least one
digit; returns the remaining characters, or `none` if the segment is absent. -/
def seg (marker : Char) : List Char → Option (List Char)
  | c :: rest =>
    if c = marker then
      if (rest.takeWhile Char.isDigit).isEmpty then none
      else some (rest.dropWhile Char.isDigit)
    else none
  | [] => none

/-- Consume a chain of code segments in order. -/
def segChain : List Char → List Char → Option (List Char)
  | [], cs => some cs
  | m :: ms, cs =>
    match seg m cs with
    | some r => segChain ms r
    | none => none

/-- Does the whole string match the anchored segment pattern? Models the
regexes `/^D\d+$/`, `/^D\d+S\d+$/`, `/^D\d+S\d+P\d+$/`, `/^D\d+S\d+P\d+V\d+$/`
(digits and the marker letters are disjoint, so greedy digit matching is
exact). -/
def matchesPat (markers : List Char) (s : String) : Bool :=
  match segChain markers s.data with
  | some [] => true
  | _ => false

/-- Pattern `/^D\d+$/`. -/
def isDistrictCode (s : String) : Bool := matchesPat ['D'] s

/-- Pattern `/^D\d+S\d+$/`. -/
def isSubcountyCode (s : String) : Bool := matchesPat ['D', 'S'] s

/-- Pattern `/^D\d+S\d+P\d+$/`. -/
def isParishCode (s : String) : Bool := matchesPat ['D', 'S', 'P'] s

/-- Pattern `/^D\d+S\d+P\d+V\d+$/`. -/
def isVillageCode (s : String) : Bool := matchesPat ['D', 'S', 'P', 'V'] s

/-- The descriptor returned by `getLocationByCode`: type tag, code, name and
the ancestor names present at that level. -/
structure LocationInfo where
  ltype : String
  code : String
  name : String
  district : Option String := none
  subcounty : Option String := none
  parish : Option String := none
deriving DecidableEq

/-- The inner village loop of `getLocationByCode`. -/
def villageSearch (code : String) (isV : Bool) (dn sn pn : String) :
    List Village → Option LocationInfo
  | [] => none
  | v :: vs =>
    if v.code = code ∧ isV = true then
      some { ltype := "village", code := v.code, name := v.name,
             district := some dn, subcounty := some sn, parish := some pn }
    else villageSearch code isV dn sn pn vs

/-- The parish loop: check the parish itself, then its villages, then the
next parish. -/
def parishSearch (code : String) (isP isV : Bool) (dn sn : String) :
    List Parish → Option LocationInfo
  | [] => none
  | p :: ps =>
    if p.code = code ∧ isP = true then
      some { ltype := "parish", code := p.code, name := p.name,
             district := some dn, subcounty := some sn }
    else
      match villageSearch code isV dn sn p.name p.villages with
      | some r => some r
      | none => parishSearch code isP isV dn sn ps

/-- The subcounty loop. -/
def subcountySearch (code : String) (isS isP isV : Bool) (dn : String) :
    List Subcounty → Option LocationInfo
  | [] => none
  | s :: ss =>
    if s.code = code ∧ isS = true then
      some { ltype := "subcounty", code := s.code, name := s.name, district := some dn }
    else
      match parishSearch code isP isV dn s.name s.parishes with
      | some r => some r
      | none => subcountySearch code isS isP isV dn ss

/-- The district loop. -/
def districtSearch (code : String) (isD isS isP isV : Bool) :
    List District → Option LocationInfo
  | [] => none
  | d :: ds =>
    if d.code = code ∧ isD = true then
      some { ltype := "district", code := d.code, name := d.name }
    else
      match subcountySearch code isS isP isV d.name d.subcounties with
      | some r => some r
      | none => districtSearch code isD isS isP isV ds

/-- Source `getLocationByCode` (src/unnamed/part_002, lines 188-247): guard
against an empty code, infer the level from the code pattern, then walk the
tree in level order; a node matches only when its code equals the query and
the pattern-inferred type agrees with its depth. Returns `none` (the JS
`null`) when nothing matches; the function is total, so it never throws. -/
def getLocationByCode (locations : Locations) (code : String) : Option LocationInfo :=
  if code = "" then none
  else
    districtSearch code (isDistrictCode code) (isSubcountyCode code)
      (isParishCode code) (isVillageCode code) locations.districts

/-- A data line is non-blank when it is non-empty after trimming (the loop in
`parseCSV` skips lines failing this test). -/
def nonBlank (line : String) : Bool := if jsTrim line = "" then false else true

/-- Sum of the per-label counts of a breakdown map (`byLevel`/`byOwnership`). -/
def sumCounts (l : List (String × Nat)) : Nat := (l.map Prod.snd).sum

/-- Total number of facilities held by a grouping map. -/
def sumLens (g : List (String × List Facility)) : Nat :=
  (g.map (fun kv => kv.2.length)).sum

/-- First-match lookup of a key's group in a grouping map (empty when absent). -/
def groupOf : List (String × List Facility) → String → List Facility
  | [], _ => []
  | (k', l) :: rest, k => if k' = k then l else groupOf rest k

/-- Does the facility resolve to the given subcounty label? -/
def keyMatches (k : String) (f : Facility) : Bool := subcountyKey f = k

/-- Fixture records for the location-filtering example of the spec: four
distinct records carrying the codes D01, D01S02, D01S02P03, D01S02P03V04. -/
def recD01 : Facility := { location_code := some "D01" }

/-- Fixture record with code D01S02. -/
def recD01S02 : Facility := { location_code := some "D01S02" }

/-- Fixture record with code D01S02P03. -/
def recD01S02P03 : Facility := { location_code := some "D01S02P03" }

/-- Fixture record with code D01S02P03V04. -/
def recD01S02P03V04 : Facility := { location_code := some "D01S02P03V04" }

/-- Fixture location tree for the resolver example: one district with one
subcounty, one parish and one village V09 — so the village code
D01S02P03V04 is absent from it. -/
def exTree : Locations :=
  ⟨[⟨"D01", "Kayunga", [⟨"D01S02", "Busaana", [⟨"D01S02P03", "Nazigo",
    [⟨"D01S02P03V09", "Kawolokota"⟩]⟩]⟩]⟩]⟩

/-- Fixture facility for the breakdown example: every column absent, so its
subcounty label resolves to "Unknown". -/
def exPlainFacility : Facility := {}

/-- The single breakdown entry produced for `[exPlainFacility]`. -/
def exBreakdownEntry : BreakdownEntry :=
  ⟨"Unknown", 1, calculateMetrics [exPlainFacility] (groupCategory [exPlainFacility])⟩

/-! ## Theorems -/

/-- C1 (counterexample): the claim says a ratio exactly equal to 0.75 yields
"high"; with strict-less-than thresholds the code falls through `ratio < 0.75`
and returns "medium", shown here at current = 3, target = 4. -/
theorem c1_severity_075_counterexample :
    (3 : ℚ) / 4 = 0.75 ∧ getSeverity 3 4 ≠ "high" := by
  have h : getSeverity 3 4 = "medium" := by norm_num [getSeverity]
  exact ⟨by norm_num, by rw [h]; decide⟩

/-- C1 (amended): severity classification uses strict-less-than thresholds on
the ratio current/target: ratio < 0.5 yields "critical", 0.5 ≤ ratio < 0.75
yields "high", 0.75 ≤ ratio < 0.9 yields "medium", and 0.9 ≤ ratio yields
"low"; in particular a ratio exactly equal to 0.75 yields "medium", not
"high". -/
theorem c1_severity_strict_thresholds (current target : ℚ)
    (_hc : 0 < current) (_ht : 0 < target) :
    (current / target < 0.5 → getSeverity current target = "critical") ∧
    (0.5 ≤ current / target → current / target < 0.75 →
      getSeverity current target = "high") ∧
    (0.75 ≤ current / target → current / target < 0.9 →
      getSeverity current target = "medium") ∧
    (0.9 ≤ current / target → getSeverity current target = "low") ∧
    (current / target = 0.75 →
      getSeverity current target = "medium" ∧ getSeverity current target ≠ "high") := by
  refine ⟨?_, ?_, ?_, ?_, ?_⟩
  · intro h1
    simp only [getSeverity]
    rw [if_pos h1]
  · intro h1 h2
    simp only [getSeverity]
    rw [if_neg (by linarith), if_pos h2]
  · intro h1 h2
    simp only [getSeverity]
    rw [if_neg (by linarith), if_neg (by linarith), if_pos h2]
  · intro h1
    simp only [getSeverity]
    rw [if_neg (by linarith), if_neg (by linarith), if_neg (by linarith)]
  · intro h1
    have hm : getSeverity current target = "medium" := by
      simp only [getSeverity]
      rw [if_neg (by rw [h1]; norm_num), if_neg (by rw [h1]; norm_num),
        if_pos (by rw [h1]; norm_num)]
    exact ⟨hm, by rw [hm]; decide⟩

/-- C1 (witness): the amended theorem applied at current = 3, target = 4. -/
theorem c1_severity_witness : getSeverity 3 4 = "medium" ∧ getSeverity 3 4 ≠ "high" :=
  (c1_severity_strict_thresholds 3 4 (by norm_num) (by norm_num)).2.2.2.2 (by norm_num)

/-- C7: for every facility list and every category string other than
"education" and "health", `calculateMetrics` returns the empty aggregate
object; the function is total, so no error is raised. -/
theorem c7_unknown_category_empty (facilities : List Facility) (category : String)
    (h1 : category ≠ "education") (h2 : category ≠ "health") :
    calculateMetrics facilities category = MetricsResult.emptyObj := by
  simp [calculateMetrics, h1, h2]

/-- C7 (witness): the theorem applied at the concrete category "water". -/
theorem c7_unknown_category_witness :
    calculateMetrics [] "water" = MetricsResult.emptyObj :=
  c7_unknown_category_empty [] "water" (by decide) (by decide)

/-- C5: field splitting honors double-quote quoting — inside quotes a comma is
accumulated literally instead of ending the field, a doubled double-quote is
accumulated as one literal quote, and parsing header `name,count` with data
line `"Bukasa, A","5"` yields the single record
`{name: "Bukasa, A", count: "5"}`. -/
theorem c5_quoted_fields :
    (∀ (rest acc : List Char),
        csvFields (',' :: rest) true acc = csvFields rest true (acc ++ [','])) ∧
    (∀ (rest acc : List Char),
        csvFields ('"' :: '"' :: rest) true acc = csvFields rest true (acc ++ ['"'])) ∧
    parseCSV "name,count\n\"Bukasa, A\",\"5\"" =
      [[("name", "Bukasa, A"), ("count", "5")]] := by
  refine ⟨fun rest acc => ?_, fun rest acc => ?_, by decide⟩
  · rw [csvFields.eq_def]
    norm_num
    intro h
    exact absurd h (by decide)
  · rw [csvFields.eq_def]
    norm_num

/-- C2: location-based filtering uses the most-specific non-empty filter field
in priority order village > parish > subcounty > district; a record is kept
iff the chosen code is a literal leading segment of its location code; and on
four records carrying D01, D01S02, D01S02P03, D01S02P03V04, filtering by the
subcounty code D01S02 keeps exactly the latter three. -/
theorem c2_location_filter :
    (∀ (facilities : List Facility) (location : LocationFilter) (code : String),
        chosenCode location = some code →
        ∀ f : Facility, f ∈ filterByLocation facilities location ↔
          f ∈ facilities ∧ leadMatch code.data (facilityLocationCode f).data = true) ∧
    (∀ location : LocationFilter,
        (isTruthy location.village = true → chosenCode location = location.village) ∧
        (isTruthy location.village = false → isTruthy location.parish = true →
          chosenCode location = location.parish) ∧
        (isTruthy location.village = false → isTruthy location.parish = false →
          isTruthy location.subcounty = true → chosenCode location = location.subcounty) ∧
        (isTruthy location.village = false → isTruthy location.parish = false →
          isTruthy location.subcounty = false → isTruthy location.district = true →
          chosenCode location = location.district) ∧
        (isTruthy location.village = false → isTruthy location.parish = false →
          isTruthy location.subcounty = false → isTruthy location.district = false →
          ∀ facilities, filterByLocation facilities location = facilities)) ∧
    filterByLocation [recD01, recD01S02, recD01S02P03, recD01S02P03V04]
        { subcounty := some "D01S02" } = [recD01S02, recD01S02P03, recD01S02P03V04] := by
  refine ⟨?_, ?_, by decide⟩
  · intro facilities location code h f
    simp [filterByLocation, h, List.mem_filter]
  · intro location
    refine ⟨?_, ?_, ?_, ?_, ?_⟩ <;>
      · intros
        simp_all [chosenCode, filterByLocation]

/-- C2 (witness): the retention criterion applied to the D01S02 example. -/
theorem c2_location_filter_witness :
    recD01 ∈ filterByLocation [recD01, recD01S02] { subcounty := some "D01S02" } ↔
      recD01 ∈ [recD01, recD01S02] ∧
        leadMatch "D01S02".data (facilityLocationCode recD01).data = true :=
  c2_location_filter.1 [recD01, recD01S02] { subcounty := some "D01S02" } "D01S02"
    (by decide) recD01

/-- On a list where no record contributes a positive parsed teacher count, the
teacher accumulator never moves. -/
theorem teachers_acc_fixed (facilities : List Facility)
    (h : ∀ f ∈ facilities, ¬ 0 < eduTeachersOf f) :
    ∀ a : EduAcc, (facilities.foldl eduStep a).totalTeachers = a.totalTeachers := by
  induction facilities with
  | nil => intro a; rfl
  | cons f fs ih =>
    intro a
    rw [List.foldl_cons, ih (fun g hg => h g (List.mem_cons_of_mem f hg))]
    show a.totalTeachers + (if 0 < eduTeachersOf f then eduTeachersOf f else 0) =
      a.totalTeachers
    rw [if_neg (h f (List.mem_cons_self f fs)), add_zero]

/-- C3: with an empty facility list every percentage field of both category
aggregates is absent (`none`), never a numeric error value; and whenever the
teacher (resp. classroom) accumulator is zero the pupil-teacher (resp.
pupil-classroom) ratio field is absent. -/
theorem c3_division_guards (facilities : List Facility) :
    (facilities.length = 0 →
      (calculateEducationMetrics facilities).electricityPercentage = none ∧
      (calculateEducationMetrics facilities).waterPercentage = none ∧
      (calculateEducationMetrics facilities).ictLabPercentage = none ∧
      (calculateEducationMetrics facilities).libraryPercentage = none ∧
      (calculateHealthMetrics facilities).electricityPercentage = none ∧
      (calculateHealthMetrics facilities).waterPercentage = none ∧
      (calculateHealthMetrics facilities).ambulancePercentage = none ∧
      (calculateHealthMetrics facilities).maternityPercentage = none ∧
      (calculateHealthMetrics facilities).hivPercentage = none ∧
      (calculateHealthMetrics facilities).maternalPercentage = none ∧
      (calculateHealthMetrics facilities).childHealthPercentage = none ∧
      (calculateHealthMetrics facilities).immunizationPercentage = none) ∧
    ((calculateEducationMetrics facilities).totalTeachers = 0 →
      (calculateEducationMetrics facilities).pupilTeacherRatioOpt = none) ∧
    ((calculateEducationMetrics facilities).totalClassrooms = 0 →
      (calculateEducationMetrics facilities).pupilClassroomRatioOpt = none) := by
  refine ⟨?_, ?_, ?_⟩
  · intro h
    simp [calculateEducationMetrics, calculateHealthMetrics, h]
  · intro h
    have ht : (eduAccOf facilities).totalTeachers = 0 := h
    simp [calculateEducationMetrics, ht]
  · intro h
    have ht : (eduAccOf facilities).totalClassrooms = 0 := h
    simp [calculateEducationMetrics, ht]

/-- C3 (witness): the guards applied at the empty facility list. -/
theorem c3_division_guards_witness :
    (calculateEducationMetrics []).electricityPercentage = none ∧
    (calculateEducationMetrics []).pupilTeacherRatioOpt = none :=
  ⟨((c3_division_guards []).1 rfl).1, (c3_division_guards []).2.1 rfl⟩

/-- C10: when no record yields a positive parsed teacher count the education
aggregate has no pupil-teacher ratio field, and its gaps list contains no
entry of type "pupil_teacher_ratio" — the benchmark comparison is false when
the ratio field is absent. -/
theorem c10_absent_teacher_ratio (facilities : List Facility)
    (h : ∀ f ∈ facilities, ¬ 0 < eduTeachersOf f) :
    (calculateEducationMetrics facilities).pupilTeacherRatioOpt = none ∧
    ∀ g ∈ (calculateEducationMetrics facilities).gaps, g.gtype ≠ "pupil_teacher_ratio" := by
  have ht : (eduAccOf facilities).totalTeachers = 0 := teachers_acc_fixed facilities h _
  constructor
  · simp [calculateEducationMetrics, ht]
  · intro g hg
    have hgaps : (calculateEducationMetrics facilities).gaps =
        coverageGap "electricity"
          (calculateEducationMetrics facilities).electricityPercentage 100 ++
        deficitGap "pupil_teacher_ratio"
          (calculateEducationMetrics facilities).pupilTeacherRatioOpt 40 := rfl
    rw [hgaps] at hg
    have hnone : (calculateEducationMetrics facilities).pupilTeacherRatioOpt = none := by
      simp [calculateEducationMetrics, ht]
    rw [hnone] at hg
    simp only [deficitGap, List.append_nil] at hg
    rcases hp : (calculateEducationMetrics facilities).electricityPercentage with _ | p
    · rw [hp] at hg
      simp [coverageGap] at hg
    · rw [hp] at hg
      simp only [coverageGap] at hg
      by_cases hlt : p < 100
      · rw [if_pos hlt] at hg
        simp at hg
        rw [hg]
        show ("electricity" : String) ≠ "pupil_teacher_ratio"
        decide
      · rw [if_neg hlt] at hg
        simp at hg

/-- C10 (witness): the theorem applied at the empty facility list. -/
theorem c10_absent_teacher_ratio_witness :
    (calculateEducationMetrics []).pupilTeacherRatioOpt = none :=
  (c10_absent_teacher_ratio [] (by simp)).1

/-- The keys of a built row are exactly the trimmed headers, regardless of how
many values the data line supplied. -/
theorem buildRow_keys (hs : List String) :
    ∀ vs, (buildRow hs vs).map Prod.fst = hs.map jsTrim := by
  induction hs with
  | nil => intro vs; cases vs <;> rfl
  | cons h hs ih =>
    intro vs
    cases vs with
    | nil => simp [buildRow, ih]
    | cons v vs => simp [buildRow, ih]

/-- The row loop produces one record per non-blank line. -/
theorem parseRows_length (headers : List String) (ds : List String) :
    (parseRows headers ds).length = (ds.filter nonBlank).length := by
  induction ds with
  | nil => rfl
  | cons line rest ih =>
    by_cases h : jsTrim line = ""
    · simp [parseRows, nonBlank, h, ih]
    · simp [parseRows, nonBlank, h, ih]

/-- Every record produced by the row loop is keyed by the trimmed headers. -/
theorem parseRows_keys (headers : List String) (ds : List String) :
    ∀ r ∈ parseRows headers ds, r.map Prod.fst = headers.map jsTrim := by
  induction ds with
  | nil => intro r hr; simp [parseRows] at hr
  | cons line rest ih =>
    intro r hr
    by_cases h : jsTrim line = ""
    · rw [parseRows, if_pos h] at hr
      exact ih r hr
    · rw [parseRows, if_neg h] at hr
      rcases List.mem_cons.mp hr with heq | hmem
      · rw [heq]
        exact buildRow_keys headers (parseCSVLine line)
      · exact ih r hmem

/-- C4: for a CSV input whose trimmed content splits into a well-formed header
line (distinct trimmed entries) followed by data lines, `parseCSV` returns
exactly one record per non-blank data line — blank lines are skipped and never
produce an empty record — and every record's keys are exactly the trimmed
entries of the header. -/
theorem c4_parse_csv_shape (content : String) (header : String) (ds : List String)
    (hsplit : (splitOnNl (trimChars content.data)).map String.mk = header :: ds)
    (_hnodup : ((parseCSVLine header).map jsTrim).Nodup) :
    (parseCSV content).length = (ds.filter nonBlank).length ∧
    ∀ r ∈ parseCSV content, r.map Prod.fst = (parseCSVLine header).map jsTrim := by
  have hp : parseCSV content = parseRows (parseCSVLine header) ds := by
    unfold parseCSV
    rw [hsplit]
  rw [hp]
  exact ⟨parseRows_length _ _, parseRows_keys _ _⟩

/-- C4 (witness): a four-line input with one blank data line yields two
records. -/
theorem c4_parse_csv_witness : (parseCSV "a,b\nx,y\n\nz,w").length = 2 :=
  ((c4_parse_csv_shape "a,b\nx,y\n\nz,w" "a,b" ["x,y", "", "z,w"]
    (by decide) (by decide)).1).trans (by decide)

/-- A successful village search means the code has the village pattern and
names some village in the list. -/
theorem villageSearch_some {code : String} {isV : Bool} {dn sn pn : String} :
    ∀ {vs : List Village} {info : LocationInfo},
      villageSearch code isV dn sn pn vs = some info →
      isV = true ∧ ∃ v ∈ vs, v.code = code := by
  intro vs
  induction vs with
  | nil => intro info h; simp [villageSearch] at h
  | cons v vs ih =>
    intro info h
    by_cases hc : v.code = code ∧ isV = true
    · exact ⟨hc.2, v, List.mem_cons_self v vs, hc.1⟩
    · rw [villageSearch, if_neg hc] at h
      obtain ⟨h1, v', hv', hcode⟩ := ih h
      exact ⟨h1, v', List.mem_cons_of_mem v hv', hcode⟩

/-- A successful parish search hits either a parish or some village beneath
one, with the matching pattern flag set. -/
theorem parishSearch_some {code : String} {isP isV : Bool} {dn sn : String} :
    ∀ {ps : List Parish} {info : LocationInfo},
      parishSearch code isP isV dn sn ps = some info →
      (isP = true ∧ ∃ p ∈ ps, p.code = code) ∨
      (isV = true ∧ ∃ p ∈ ps, ∃ v ∈ p.villages, v.code = code) := by
  intro ps
  induction ps with
  | nil => intro info h; simp [parishSearch] at h
  | cons p ps ih =>
    intro info h
    by_cases hc : p.code = code ∧ isP = true
    · exact Or.inl ⟨hc.2, p, List.mem_cons_self p ps, hc.1⟩
    · rw [parishSearch, if_neg hc] at h
      rcases hv : villageSearch code isV dn sn p.name p.villages with _ | r
      · rw [hv] at h
        rcases ih h with ⟨h1, p', hp', hcode⟩ | ⟨h1, p', hp', v', hv', hcode⟩
        · exact Or.inl ⟨h1, p', List.mem_cons_of_mem p hp', hcode⟩
        · exact Or.inr ⟨h1, p', List.mem_cons_of_mem p hp', v', hv', hcode⟩
      · rw [hv] at h
        obtain ⟨h1, v', hv', hcode⟩ := villageSearch_some hv
        exact Or.inr ⟨h1, p, List.mem_cons_self p ps, v', hv', hcode⟩

/-- A successful subcounty search hits a subcounty, a parish or a village,
with the matching pattern flag set. -/
theorem subcountySearch_some {code : String} {isS isP isV : Bool} {dn : String} :
    ∀ {ss : List Subcounty} {info : LocationInfo},
      subcountySearch code isS isP isV dn ss = some info →
      (isS = true ∧ ∃ s ∈ ss, s.code = code) ∨
      (isP = true ∧ ∃ s ∈ ss, ∃ p ∈ s.parishes, p.code = code) ∨
      (isV = true ∧ ∃ s ∈ ss, ∃ p ∈ s.parishes, ∃ v ∈ p.villages, v.code = code) := by
  intro ss
  induction ss with
  | nil => intro info h; simp [subcountySearch] at h
  | cons s ss ih =>
    intro info h
    by_cases hc : s.code = code ∧ isS = true
    · exact Or.inl ⟨hc.2, s, List.mem_cons_self s ss, hc.1⟩
    · rw [subcountySearch, if_neg hc] at h
      rcases hp : parishSearch code isP isV dn s.name s.parishes with _ | r
      · rw [hp] at h
        rcases ih h with ⟨h1, s', hs', hcode⟩ | ⟨h1, s', hs', rest⟩ | ⟨h1, s', hs', rest⟩
        · exact Or.inl ⟨h1, s', List.mem_cons_of_mem s hs', hcode⟩
        · exact Or.inr (Or.inl ⟨h1, s', List.mem_cons_of_mem s hs', rest⟩)
        · exact Or.inr (Or.inr ⟨h1, s', List.mem_cons_of_mem s hs', rest⟩)
      · rw [hp] at h
        rcases parishSearch_some hp with ⟨h1, p', hp', hcode⟩ | ⟨h1, p', hp', rest⟩
        · exact Or.inr (Or.inl ⟨h1, s, List.mem_cons_self s ss, p', hp', hcode⟩)
        · exact Or.inr (Or.inr ⟨h1, s, List.mem_cons_self s ss, p', hp', rest⟩)

/-- A successful district search hits a node at exactly one of the four
levels, with the matching pattern flag set. -/
theorem districtSearch_some {code : String} {isD isS isP isV : Bool} :
    ∀ {ds : List District} {info : LocationInfo},
      districtSearch code isD isS isP isV ds = some info →
      (isD = true ∧ ∃ d ∈ ds, d.code = code) ∨
      (isS = true ∧ ∃ d ∈ ds, ∃ s ∈ d.subcounties, s.code = code) ∨
      (isP = true ∧ ∃ d ∈ ds, ∃ s ∈ d.subcounties, ∃ p ∈ s.parishes, p.code = code) ∨
      (isV = true ∧ ∃ d ∈ ds, ∃ s ∈ d.subcounties, ∃ p ∈ s.parishes,
        ∃ v ∈ p.villages, v.code = code) := by
  intro ds
  induction ds with
  | nil => intro info h; simp [districtSearch] at h
  | cons d ds ih =>
    intro info h
    by_cases hc : d.code = code ∧ isD = true
    · exact Or.inl ⟨hc.2, d, List.mem_cons_self d ds, hc.1⟩
    · rw [districtSearch, if_neg hc] at h
      rcases hs : subcountySearch code isS isP isV d.name d.subcounties with _ | r
      · rw [hs] at h
        rcases ih h with ⟨h1, d', hd', hcode⟩ | ⟨h1, d', hd', rest⟩ |
          ⟨h1, d', hd', rest⟩ | ⟨h1, d', hd', rest⟩
        · exact Or.inl ⟨h1, d', List.mem_cons_of_mem d hd', hcode⟩
        · exact Or.inr (Or.inl ⟨h1, d', List.mem_cons_of_mem d hd', rest⟩)
        · exact Or.inr (Or.inr (Or.inl ⟨h1, d', List.mem_cons_of_mem d hd', rest⟩))
        · exact Or.inr (Or.inr (Or.inr ⟨h1, d', List.mem_cons_of_mem d hd', rest⟩))
      · rw [hs] at h
        rcases subcountySearch_some hs with ⟨h1, rest⟩ | ⟨h1, rest⟩ | ⟨h1, rest⟩
        · exact Or.inr (Or.inl ⟨h1, d, List.mem_cons_self d ds, rest⟩)
        · exact Or.inr (Or.inr (Or.inl ⟨h1, d, List.mem_cons_self d ds, rest⟩))
        · exact Or.inr (Or.inr (Or.inr ⟨h1, d, List.mem_cons_self d ds, rest⟩))

/-- C6: `getLocationByCode` returns a descriptor only when some tree node's
code equals the queried code and the pattern-inferred level matches that
node's depth; a code matching no node, or matching none of the four level
patterns, yields the not-found sentinel `none`; the function is total, so it
never throws. -/
theorem c6_resolver_soundness (locations : Locations) (code : String) :
    ((∃ info, getLocationByCode locations code = some info) →
      (isDistrictCode code = true ∧ ∃ d ∈ locations.districts, d.code = code) ∨
      (isSubcountyCode code = true ∧
        ∃ d ∈ locations.districts, ∃ s ∈ d.subcounties, s.code = code) ∨
      (isParishCode code = true ∧
        ∃ d ∈ locations.districts, ∃ s ∈ d.subcounties, ∃ p ∈ s.parishes, p.code = code) ∨
      (isVillageCode code = true ∧
        ∃ d ∈ locations.districts, ∃ s ∈ d.subcounties, ∃ p ∈ s.parishes,
          ∃ v ∈ p.villages, v.code = code)) ∧
    ((∀ d ∈ locations.districts, d.code ≠ code ∧
        ∀ s ∈ d.subcounties, s.code ≠ code ∧
          ∀ p ∈ s.parishes, p.code ≠ code ∧
            ∀ v ∈ p.villages, v.code ≠ code) →
      getLocationByCode locations code = none) ∧
    (isDistrictCode code = false → isSubcountyCode code = false →
      isParishCode code = false → isVillageCode code = false →
      getLocationByCode locations code = none) := by
  have main : ∀ info, getLocationByCode locations code = some info →
      (isDistrictCode code = true ∧ ∃ d ∈ locations.districts, d.code = code) ∨
      (isSubcountyCode code = true ∧
        ∃ d ∈ locations.districts, ∃ s ∈ d.subcounties, s.code = code) ∨
      (isParishCode code = true ∧
        ∃ d ∈ locations.districts, ∃ s ∈ d.subcounties, ∃ p ∈ s.parishes, p.code = code) ∨
      (isVillageCode code = true ∧
        ∃ d ∈ locations.districts, ∃ s ∈ d.subcounties, ∃ p ∈ s.parishes,
          ∃ v ∈ p.villages, v.code = code) := by
    intro info h
    by_cases hempty : code = ""
    · rw [getLocationByCode, if_pos hempty] at h
      exact absurd h (by simp)
    · rw [getLocationByCode, if_neg hempty] at h
      exact districtSearch_some h
  refine ⟨fun ⟨info, h⟩ => main info h, ?_, ?_⟩
  · intro habsent
    rcases hres : getLocationByCode locations code with _ | info
    · rfl
    · exfalso
      rcases main info hres with ⟨_, d, hd, hcode⟩ | ⟨_, d, hd, s, hs, hcode⟩ |
        ⟨_, d, hd, s, hs, p, hp, hcode⟩ | ⟨_, d, hd, s, hs, p, hp, v, hv, hcode⟩
      · exact (habsent d hd).1 hcode
      · exact ((habsent d hd).2 s hs).1 hcode
      · exact (((habsent d hd).2 s hs).2 p hp).1 hcode
      · exact ((((habsent d hd).2 s hs).2 p hp).2 v hv) hcode
  · intro h1 h2 h3 h4
    rcases hres : getLocationByCode locations code with _ | info
    · rfl
    · exfalso
      rcases main info hres with ⟨hb, _⟩ | ⟨hb, _⟩ | ⟨hb, _⟩ | ⟨hb, _⟩
      · rw [h1] at hb; exact Bool.false_ne_true hb
      · rw [h2] at hb; exact Bool.false_ne_true hb
      · rw [h3] at hb; exact Bool.false_ne_true hb
      · rw [h4] at hb; exact Bool.false_ne_true hb

/-- C6 (witness): on the fixture tree, the absent village code
D01S02P03V04 resolves to not-found, via the code-absent conjunct, and the
pattern-free code XX99 resolves to not-found via the pattern conjunct. -/
theorem c6_resolver_witness :
    getLocationByCode exTree "D01S02P03V04" = none ∧
    getLocationByCode exTree "XX99" = none :=
  ⟨(c6_resolver_soundness exTree "D01S02P03V04").2.1 (by decide),
   (c6_resolver_soundness exTree "XX99").2.2 (by decide) (by decide) (by decide) (by decide)⟩

/-- Bumping a label raises the total count by exactly one. -/
theorem bumpLabel_sum (g : List (String × Nat)) (k : String) :
    sumCounts (bumpLabel g k) = sumCounts g + 1 := by
  induction g with
  | nil => rfl
  | cons kn rest ih =>
    obtain ⟨k', n⟩ := kn
    by_cases h : k' = k
    · simp [bumpLabel, h, sumCounts]
      omega
    · simp only [bumpLabel, if_neg h]
      simp only [sumCounts, List.map_cons, List.sum_cons] at ih ⊢
      omega

/-- Invariants of the education accumulation loop: each label map gains
exactly one count per record, and each presence counter gains at most one. -/
theorem edu_fold_bounds (facilities : List Facility) :
    ∀ a : EduAcc,
      sumCounts (facilities.foldl eduStep a).byLevel =
        sumCounts a.byLevel + facilities.length ∧
      sumCounts (facilities.foldl eduStep a).byOwnership =
        sumCounts a.byOwnership + facilities.length ∧
      (facilities.foldl eduStep a).withElectricity ≤
        a.withElectricity + facilities.length ∧
      (facilities.foldl eduStep a).withWater ≤ a.withWater + facilities.length ∧
      (facilities.foldl eduStep a).withICTLab ≤ a.withICTLab + facilities.length ∧
      (facilities.foldl eduStep a).withLibrary ≤ a.withLibrary + facilities.length := by
  induction facilities with
  | nil => intro a; simp
  | cons f fs ih =>
    intro a
    obtain ⟨h1, h2, h3, h4, h5, h6⟩ := ih (eduStep a f)
    have e1 : sumCounts (eduStep a f).byLevel = sumCounts a.byLevel + 1 :=
      bumpLabel_sum a.byLevel (eduLevel f)
    have e2 : sumCounts (eduStep a f).byOwnership = sumCounts a.byOwnership + 1 :=
      bumpLabel_sum a.byOwnership (ownershipOf f)
    have b1 : (eduStep a f).withElectricity ≤ a.withElectricity + 1 := by
      simp only [eduStep]
      split <;> omega
    have b2 : (eduStep a f).withWater ≤ a.withWater + 1 := by
      simp only [eduStep]
      split <;> omega
    have b3 : (eduStep a f).withICTLab ≤ a.withICTLab + 1 := by
      simp only [eduStep]
      split <;> omega
    have b4 : (eduStep a f).withLibrary ≤ a.withLibrary + 1 := by
      simp only [eduStep]
      split <;> omega
    rw [List.foldl_cons, List.length_cons]
    exact ⟨by rw [h1, e1]; omega, by rw [h2, e2]; omega,
      by omega, by omega, by omega, by omega⟩

/-- Invariants of the health accumulation loop. -/
theorem health_fold_bounds (facilities : List Facility) :
    ∀ a : HealthAcc,
      sumCounts (facilities.foldl healthStep a).byLevel =
        sumCounts a.byLevel + facilities.length ∧
      sumCounts (facilities.foldl healthStep a).byOwnership =
        sumCounts a.byOwnership + facilities.length ∧
      (facilities.foldl healthStep a).withElectricity ≤
        a.withElectricity + facilities.length ∧
      (facilities.foldl healthStep a).withWater ≤ a.withWater + facilities.length ∧
      (facilities.foldl healthStep a).withAmbulance ≤
        a.withAmbulance + facilities.length ∧
      (facilities.foldl healthStep a).withMaternity ≤
        a.withMaternity + facilities.length ∧
      (facilities.foldl healthStep a).offeringHIV ≤ a.offeringHIV + facilities.length ∧
      (facilities.foldl healthStep a).offeringMaternal ≤
        a.offeringMaternal + facilities.length ∧
      (facilities.foldl healthStep a).offeringChildHealth ≤
        a.offeringChildHealth + facilities.length ∧
      (facilities.foldl healthStep a).offeringImmunization ≤
        a.offeringImmunization + facilities.length := by
  induction facilities with
  | nil => intro a; simp
  | cons f fs ih =>
    intro a
    obtain ⟨h1, h2, h3, h4, h5, h6, h7, h8, h9, h10⟩ := ih (healthStep a f)
    have e1 : sumCounts (healthStep a f).byLevel = sumCounts a.byLevel + 1 :=
      bumpLabel_sum a.byLevel (healthLevel f)
    have e2 : sumCounts (healthStep a f).byOwnership = sumCounts a.byOwnership + 1 :=
      bumpLabel_sum a.byOwnership (ownershipOf f)
    have b1 : (healthStep a f).withElectricity ≤ a.withElectricity + 1 := by
      simp only [healthStep]
      split <;> omega
    have b2 : (healthStep a f).withWater ≤ a.withWater + 1 := by
      simp only [healthStep]
      split <;> omega
    have b3 : (healthStep a f).withAmbulance ≤ a.withAmbulance + 1 := by
      simp only [healthStep]
      split <;> omega
    have b4 : (healthStep a f).withMaternity ≤ a.withMaternity + 1 := by
      simp only [healthStep]
      split <;> omega
    have b5 : (healthStep a f).offeringHIV ≤ a.offeringHIV + 1 := by
      simp only [healthStep]
      split <;> omega
    have b6 : (healthStep a f).offeringMaternal ≤ a.offeringMaternal + 1 := by
      simp only [healthStep]
      split <;> omega
    have b7 : (healthStep a f).offeringChildHealth ≤ a.offeringChildHealth + 1 := by
      simp only [healthStep]
      split <;> omega
    have b8 : (healthStep a f).offeringImmunization ≤ a.offeringImmunization + 1 := by
      simp only [healthStep]
      split <;> omega
    rw [List.foldl_cons, List.length_cons]
    exact ⟨by rw [h1, e1]; omega, by rw [h2, e2]; omega, by omega, by omega,
      by omega, by omega, by omega, by omega, by omega, by omega⟩

/-- C9: for every facility list and both categories, the aggregate's
totalFacilities equals the list's length, every infrastructure and service
presence counter is at most totalFacilities, and the per-label counts in
byLevel and byOwnership each sum exactly to totalFacilities (each record
contributes one label per breakdown, "Unknown" when absent). -/
theorem c9_aggregate_invariants (facilities : List Facility) :
    ((calculateEducationMetrics facilities).totalFacilities = facilities.length ∧
     sumCounts (calculateEducationMetrics facilities).byLevel = facilities.length ∧
     sumCounts (calculateEducationMetrics facilities).byOwnership = facilities.length ∧
     (calculateEducationMetrics facilities).withElectricity ≤ facilities.length ∧
     (calculateEducationMetrics facilities).withWater ≤ facilities.length ∧
     (calculateEducationMetrics facilities).withICTLab ≤ facilities.length ∧
     (calculateEducationMetrics facilities).withLibrary ≤ facilities.length) ∧
    ((calculateHealthMetrics facilities).totalFacilities = facilities.length ∧
     sumCounts (calculateHealthMetrics facilities).byLevel = facilities.length ∧
     sumCounts (calculateHealthMetrics facilities).byOwnership = facilities.length ∧
     (calculateHealthMetrics facilities).withElectricity ≤ facilities.length ∧
     (calculateHealthMetrics facilities).withWater ≤ facilities.length ∧
     (calculateHealthMetrics facilities).withAmbulance ≤ facilities.length ∧
     (calculateHealthMetrics facilities).withMaternity ≤ facilities.length ∧
     (calculateHealthMetrics facilities).offeringHIV ≤ facilities.length ∧
     (calculateHealthMetrics facilities).offeringMaternal ≤ facilities.length ∧
     (calculateHealthMetrics facilities).offeringChildHealth ≤ facilities.length ∧
     (calculateHealthMetrics facilities).offeringImmunization ≤ facilities.length) := by
  obtain ⟨e1, e2, e3, e4, e5, e6⟩ := edu_fold_bounds facilities ({} : EduAcc)
  obtain ⟨g1, g2, g3, g4, g5, g6, g7, g8, g9, g10⟩ :=
    health_fold_bounds facilities ({} : HealthAcc)
  constructor
  · exact ⟨rfl, by simpa [eduAccOf, sumCounts] using e1,
      by simpa [eduAccOf, sumCounts] using e2, by simpa [eduAccOf] using e3,
      by simpa [eduAccOf] using e4, by simpa [eduAccOf] using e5,
      by simpa [eduAccOf] using e6⟩
  · exact ⟨rfl, by simpa [healthAccOf, sumCounts] using g1,
      by simpa [healthAccOf, sumCounts] using g2, by simpa [healthAccOf] using g3,
      by simpa [healthAccOf] using g4, by simpa [healthAccOf] using g5,
      by simpa [healthAccOf] using g6, by simpa [healthAccOf] using g7,
      by simpa [healthAccOf] using g8, by simpa [healthAccOf] using g9,
      by simpa [healthAccOf] using g10⟩

/-- Inserting one facility into a grouping map grows the total size by one. -/
theorem insertGroup_sumLens (g : List (String × List Facility)) (k : String)
    (f : Facility) : sumLens (insertGroup g k f) = sumLens g + 1 := by
  induction g with
  | nil => rfl
  | cons kv rest ih =>
    obtain ⟨k', l⟩ := kv
    by_cases h : k' = k
    · simp [insertGroup, h, sumLens]
      omega
    · simp only [insertGroup, if_neg h]
      simp only [sumLens, List.map_cons, List.sum_cons] at ih ⊢
      omega

/-- Keys after an insertion: unchanged when the key exists, appended when new. -/
theorem insertGroup_keys (g : List (String × List Facility)) (k : String)
    (f : Facility) :
    (insertGroup g k f).map Prod.fst =
      if k ∈ g.map Prod.fst then g.map Prod.fst else g.map Prod.fst ++ [k] := by
  induction g with
  | nil => simp [insertGroup]
  | cons kv rest ih =>
    obtain ⟨k', l⟩ := kv
    by_cases h : k' = k
    · simp [insertGroup, h]
    · have hk : k ∈ (k' :: rest.map Prod.fst) ↔ k ∈ rest.map Prod.fst := by
        simp [List.mem_cons, Ne.symm h]
      by_cases hm : k ∈ rest.map Prod.fst
      · simp [insertGroup, if_neg h, ih, hm, Ne.symm h]
      · simp [insertGroup, if_neg h, ih, hm, Ne.symm h]

/-- Membership in the keys after an insertion. -/
theorem insertGroup_keys_mem (g : List (String × List Facility)) (k k' : String)
    (f : Facility) :
    k' ∈ (insertGroup g k f).map Prod.fst ↔ k' ∈ g.map Prod.fst ∨ k' = k := by
  rw [insertGroup_keys]
  by_cases hm : k ∈ g.map Prod.fst
  · rw [if_pos hm]
    constructor
    · exact Or.inl
    · rintro (h | rfl)
      · exact h
      · exact hm
  · rw [if_neg hm]
    simp [List.mem_append]

/-- Insertion preserves distinctness of the keys. -/
theorem insertGroup_keys_nodup (g : List (String × List Facility)) (k : String)
    (f : Facility) (h : (g.map Prod.fst).Nodup) :
    ((insertGroup g k f).map Prod.fst).Nodup := by
  rw [insertGroup_keys]
  by_cases hm : k ∈ g.map Prod.fst
  · rwa [if_pos hm]
  · rw [if_neg hm]
    simp [List.nodup_append, h, hm]

/-- Looking up the inserted key finds its group extended by the new facility. -/
theorem groupOf_insertGroup_same (g : List (String × List Facility)) (k : String)
    (f : Facility) : groupOf (insertGroup g k f) k = groupOf g k ++ [f] := by
  induction g with
  | nil => simp [insertGroup, groupOf]
  | cons kv rest ih =>
    obtain ⟨k', l⟩ := kv
    by_cases h : k' = k
    · simp [insertGroup, groupOf, h]
    · simp [insertGroup, groupOf, h, ih]

/-- Looking up any other key is unaffected by an insertion. -/
theorem groupOf_insertGroup_other (g : List (String × List Facility))
    (k k' : String) (f : Facility) (h : k' ≠ k) :
    groupOf (insertGroup g k f) k' = groupOf g k' := by
  induction g with
  | nil => simp [insertGroup, groupOf, Ne.symm h]
  | cons kv rest ih =>
    obtain ⟨k'', l⟩ := kv
    by_cases h2 : k'' = k
    · subst h2
      simp [insertGroup, groupOf, Ne.symm h]
    · by_cases h3 : k'' = k'
      · simp [insertGroup, groupOf, h, h2, h3]
      · simp [insertGroup, groupOf, h2, h3, ih]

/-- With distinct keys, a member's group is what `groupOf` returns. -/
theorem groupOf_of_mem (g : List (String × List Facility)) (k : String)
    (l : List Facility) (hnd : (g.map Prod.fst).Nodup) (hm : (k, l) ∈ g) :
    groupOf g k = l := by
  induction g with
  | nil => simp at hm
  | cons kv rest ih =>
    obtain ⟨k', l'⟩ := kv
    rcases List.mem_cons.mp hm with heq | hmem
    · obtain ⟨rfl, rfl⟩ := Prod.mk.injEq .. ▸ heq
      simp [groupOf]
    · have hk : k' ≠ k := by
        rintro rfl
        exact (List.nodup_cons.mp hnd).1 (List.mem_map.mpr ⟨(k', l), hmem, rfl⟩)
      simp only [groupOf, if_neg hk]
      exact ih (List.nodup_cons.mp hnd).2 hmem

/-- Keys of the grouping fold: a label appears iff it was a key already or is
the resolved subcounty label of some processed facility. -/
theorem groupFold_keys_mem (facilities : List Facility) :
    ∀ (g : List (String × List Facility)) (k : String),
      k ∈ ((facilities.foldl (fun g f => insertGroup g (subcountyKey f) f) g).map
        Prod.fst) ↔ k ∈ g.map Prod.fst ∨ k ∈ facilities.map subcountyKey := by
  induction facilities with
  | nil => intro g k; simp
  | cons f fs ih =>
    intro g k
    rw [List.foldl_cons, ih, insertGroup_keys_mem]
    simp only [List.map_cons, List.mem_cons]
    tauto

/-- The grouping fold preserves distinctness of the keys. -/
theorem groupFold_keys_nodup (facilities : List Facility) :
    ∀ g : List (String × List Facility), (g.map Prod.fst).Nodup →
      (((facilities.foldl (fun g f => insertGroup g (subcountyKey f) f) g).map
        Prod.fst)).Nodup := by
  induction facilities with
  | nil => intro g h; simpa using h
  | cons f fs ih =>
    intro g h
    rw [List.foldl_cons]
    exact ih _ (insertGroup_keys_nodup g (subcountyKey f) f h)

/-- The grouping fold adds exactly one facility to the map per record. -/
theorem groupFold_sumLens (facilities : List Facility) :
    ∀ g : List (String × List Facility),
      sumLens (facilities.foldl (fun g f => insertGroup g (subcountyKey f) f) g) =
        sumLens g + facilities.length := by
  induction facilities with
  | nil => intro g; simp
  | cons f fs ih =>
    intro g
    rw [List.foldl_cons, ih, insertGroup_sumLens]
    simp only [List.length_cons]
    omega

/-- After the grouping fold, each key's group is its old group followed by the
processed facilities resolving to that key, in order. -/
theorem groupFold_groupOf (facilities : List Facility) :
    ∀ (g : List (String × List Facility)) (k : String),
      groupOf (facilities.foldl (fun g f => insertGroup g (subcountyKey f) f) g) k =
        groupOf g k ++ facilities.filter (keyMatches k) := by
  induction facilities with
  | nil => intro g k; simp
  | cons f fs ih =>
    intro g k
    rw [List.foldl_cons, ih]
    by_cases h : subcountyKey f = k
    · subst h
      rw [groupOf_insertGroup_same]
      simp [List.filter_cons, keyMatches, List.append_assoc]
    · rw [groupOf_insertGroup_other _ _ _ _ (fun hk => h hk.symm)]
      have hf : keyMatches k f = false := by simp [keyMatches, h]
      simp [List.filter_cons, hf]

/-- C8: the subcounty breakdown has exactly one entry per distinct resolved
subcounty label (missing values grouped under "Unknown"), each entry's
facilityCount is the number of records resolving to its label, the counts sum
to the input length, and the sequence is sorted by facilityCount descending. -/
theorem c8_subcounty_breakdown (facilities : List Facility) :
    ((getSubcountyBreakdown facilities).map (fun e => e.location)).Nodup ∧
    (∀ lbl : String,
        lbl ∈ (getSubcountyBreakdown facilities).map (fun e => e.location) ↔
        lbl ∈ facilities.map subcountyKey) ∧
    (∀ e ∈ getSubcountyBreakdown facilities,
        e.facilityCount = (facilities.filter (keyMatches e.location)).length) ∧
    ((getSubcountyBreakdown facilities).map (fun e => e.facilityCount)).sum =
      facilities.length ∧
    List.Pairwise (fun a b => b.facilityCount ≤ a.facilityCount)
      (getSubcountyBreakdown facilities) := by
  have hperm :
      List.Perm (getSubcountyBreakdown facilities)
        ((groupBySubcounty facilities).map (fun kv =>
          BreakdownEntry.mk kv.1 kv.2.length
            (calculateMetrics kv.2 (groupCategory kv.2)))) :=
    List.perm_insertionSort entryGE _
  have hloc :
      ((groupBySubcounty facilities).map (fun kv =>
          BreakdownEntry.mk kv.1 kv.2.length
            (calculateMetrics kv.2 (groupCategory kv.2)))).map (fun e => e.location) =
        (groupBySubcounty facilities).map Prod.fst := by
    rw [List.map_map]
    rfl
  have hnodupg : ((groupBySubcounty facilities).map Prod.fst).Nodup :=
    groupFold_keys_nodup facilities [] (by simp)
  refine ⟨?_, ?_, ?_, ?_, ?_⟩
  · rw [(hperm.map (fun e => e.location)).nodup_iff, hloc]
    exact hnodupg
  · intro lbl
    rw [(hperm.map (fun e => e.location)).mem_iff, hloc]
    have := groupFold_keys_mem facilities [] lbl
    simpa [groupBySubcounty] using this
  · intro e he
    have hmem := hperm.mem_iff.mp he
    obtain ⟨kv, hkv, hmk⟩ := List.mem_map.mp hmem
    have hgrp : kv.2 = facilities.filter (keyMatches kv.1) := by
      have h1 : groupOf (groupBySubcounty facilities) kv.1 = kv.2 :=
        groupOf_of_mem _ kv.1 kv.2 hnodupg (by simpa using hkv)
      have h2 := groupFold_groupOf facilities [] kv.1
      simp only [groupBySubcounty] at h1
      rw [h1] at h2
      simpa [groupOf] using h2
    rw [← hmk]
    simp only
    rw [hgrp]
  · have hsum := (hperm.map (fun e => e.facilityCount)).sum_eq
    rw [hsum, List.map_map]
    have hcnt :
        ((groupBySubcounty facilities).map
          ((fun e : BreakdownEntry => e.facilityCount) ∘ (fun kv =>
            BreakdownEntry.mk kv.1 kv.2.length
              (calculateMetrics kv.2 (groupCategory kv.2))))).sum =
          sumLens (groupBySubcounty facilities) := rfl
    rw [hcnt]
    have := groupFold_sumLens facilities []
    simpa [groupBySubcounty, sumLens] using this
  · exact List.sorted_insertionSort entryGE _

/-- C8 (witness): the per-entry count property applied to the one-record
breakdown of the fixture facility (its subcounty label is "Unknown"). -/
theorem c8_subcounty_breakdown_witness :
    exBreakdownEntry.facilityCount =
      (([exPlainFacility] : List Facility).filter
        (keyMatches exBreakdownEntry.location)).length :=
  (c8_subcounty_breakdown [exPlainFacility]).2.2.1 exBreakdownEntry
    (List.Mem.head [] :
      exBreakdownEntry ∈ getSubcountyBreakdown [exPlainFacility])
